import Mathlib

/-!
Verification of the prompt-assembly, example-selection and answer-extraction
core of the traigent-sandbox quickstart agents.

The development shallowly embeds, faithfully to the Python source:
  * `PromptTemplateSystem.build_prompt` and its fragment dictionaries
    (src/quickstart/agents/livebench_competition_math/prompt_templates.py);
  * the support classifier `PromptBuilder.build_system_message` and
    `ExampleSelector.select_examples`
    (src/quickstart/agents/support_classifier/agent.py);
  * the LiveBench `ExampleSelector.select_examples` and
    `PromptBuilder.format_answer_for_livebench`
    (src/quickstart/agents/livebench_competition_math/agent.py).

Python dictionaries of template fragments become association lists,
Python strings in the prompt system become Lean `String`s, and the
character-level answer extractor works over `List Nat` of code points
(which is what a Python `str` is).  Randomness (`random.choice`,
`random.sample`) is modelled by an explicit stream `gs : List Nat` of
draws: every concrete run of the Python code corresponds to some stream,
and all theorems quantify over the stream.  Python `set` iteration order
is implementation-defined (string hashing is salted per process), so the
order in which `list(set(...))` enumerates values is modelled by an extra
list parameter constrained only to be a duplicate-free enumeration of the
same values (`IsSetOrder`).
-/

namespace Traigent

/-! ## Fragment dictionaries of `PromptTemplateSystem.__init__` -/

/-- `self.system_roles` from `PromptTemplateSystem.__init__`. -/
def system_roles : List (String × String) :=
  [("none", ""),
   ("minimal", "You are a helpful assistant."),
   ("standard", "You are a helpful assistant that can solve mathematical problems."),
   ("expert", "You are an expert mathematician with deep knowledge of {domain}."),
   ("olympiad", "You are a Mathematical Olympiad champion skilled in competition mathematics."),
   ("educator", "You are a mathematics educator who explains concepts clearly."),
   ("researcher", "You are a mathematics researcher with expertise in {domain}.")]

/-- `self.reasoning_styles` from `PromptTemplateSystem.__init__`. -/
def reasoning_styles : List (String × String) :=
  [("none", ""),
   ("basic", "Think step by step."),
   ("detailed", "Break down the problem systematically. Show all your reasoning."),
   ("analytical", "Analyze the problem structure before solving. Identify key insights."),
   ("competition", "Apply competition problem-solving techniques. Look for elegant solutions."),
   ("creative", "Consider multiple approaches. Think creatively about the problem."),
   ("rigorous", "Provide rigorous mathematical reasoning with clear logical steps.")]

/-- `self.problem_approaches` from `PromptTemplateSystem.__init__`. -/
def problem_approaches : List (String × String) :=
  [("direct", "Solve the problem directly."),
   ("decompose", "Break the problem into smaller subproblems."),
   ("pattern", "Look for patterns and apply known techniques."),
   ("construct", "Build the solution constructively."),
   ("contradict", "Consider proof by contradiction if applicable."),
   ("induction", "Use mathematical induction where appropriate.")]

/-- `self.answer_formats` from `PromptTemplateSystem.__init__`. -/
def answer_formats : List (String × String) :=
  [("minimal", "Provide only the final answer."),
   ("boxed", "Box your final answer: \\boxed{answer}"),
   ("explained", "Explain your solution, then clearly state the final answer."),
   ("step_numbered", "Number each step of your solution."),
   ("latex", "Use LaTeX notation for all mathematical expressions."),
   ("competition", "Format according to competition standards (AMC: letter, AIME: 3-digit integer).")]

/-- `self.notation_styles` from `PromptTemplateSystem.__init__`. -/
def notation_styles : List (String × String) :=
  [("standard", "Use standard mathematical notation."),
   ("latex", "Use LaTeX for all mathematical expressions."),
   ("plain", "Use plain text notation (e.g., x^2 for x squared)."),
   ("verbal", "Explain mathematics verbally when possible."),
   ("mixed", "Use the most appropriate notation for clarity.")]

/-- `self.verification_styles` from `PromptTemplateSystem.__init__`. -/
def verification_styles : List (String × String) :=
  [("none", ""),
   ("basic", "Double-check your answer."),
   ("thorough", "Verify your answer by substitution or alternative method."),
   ("explain", "Explain why your answer is correct."),
   ("constraints", "Verify that your answer satisfies all problem constraints.")]

/-- `self.cot_styles` from `PromptTemplateSystem.__init__`. -/
def cot_styles : List (String × String) :=
  [("none", ""),
   ("basic", "Let's think step by step."),
   ("detailed", "I'll work through this problem step by step, showing all reasoning."),
   ("reflective", "Let me think about this problem and reflect on the best approach."),
   ("structured", "I'll solve this using a structured approach: 1) Understand, 2) Plan, 3) Execute, 4) Verify.")]

/-- Association-list lookup, modelling Python dict lookup `d[key]` /
`key in d` on the string-keyed fragment dictionaries. -/
def alookup (k : String) : List (String × String) → Option String
  | [] => none
  | p :: rest => if k = p.1 then some p.2 else alookup k rest

/-- Python truthiness of an optional string argument
(`None` and `""` are falsy, every other string truthy). -/
def optTruthy : Option String → Bool
  | none => false
  | some s => !s.isEmpty

/-- Python `pat in s` substring containment on strings. -/
def strContains (s pat : String) : Bool :=
  decide (pat.data <:+: s.data)

/-- Python `role_text.format(domain=dom)` for templates whose only
placeholder is `{domain}`: replace every occurrence of the placeholder. -/
def formatDomain (s dom : String) : String :=
  String.intercalate dom (s.splitOn "{domain}")

/-- Contribution of the `system_role` category to `prompt_parts`
(prompt_templates.py lines 115-121): looked up in the dictionary, the
`{domain}` placeholder substituted when a truthy domain is supplied, and
appended only when the resulting text is non-empty; an unknown key
contributes nothing. -/
def rolePart (system_role : String) (domain : Option String) : List String :=
  match alookup system_role system_roles with
  | some rt0 =>
      let rt := if optTruthy domain && strContains rt0 "{domain}"
                then formatDomain rt0 (domain.getD "") else rt0
      if !rt.isEmpty then [rt] else []
  | none => []

/-- Contribution of the `reasoning_style` category (lines 123-125):
appended when the key is known and the text non-empty. -/
def reasoningPart (reasoning_style : String) : List String :=
  match alookup reasoning_style reasoning_styles with
  | some t => if !t.isEmpty then [t] else []
  | none => []

/-- Contribution of the `problem_approach` category (lines 127-129):
appended whenever the key is known, with no emptiness guard. -/
def approachPart (problem_approach : String) : List String :=
  match alookup problem_approach problem_approaches with
  | some t => [t]
  | none => []

/-- Contribution of the `notation_style` category (lines 131-133):
appended whenever the key is known, with no emptiness guard. -/
def notationPart (notation_style : String) : List String :=
  match alookup notation_style notation_styles with
  | some t => [t]
  | none => []

/-- Contribution of the `answer_format` category (lines 135-137):
appended whenever the key is known, with no emptiness guard. -/
def answerPart (answer_format : String) : List String :=
  match alookup answer_format answer_formats with
  | some t => [t]
  | none => []

/-- Contribution of the `verification_style` category (lines 139-141):
appended when the key is known and the text non-empty. -/
def verificationPart (verification_style : String) : List String :=
  match alookup verification_style verification_styles with
  | some t => if !t.isEmpty then [t] else []
  | none => []

/-- Contribution of the `cot_style` category (lines 143-145): appended
when the key is known and the text non-empty. -/
def cotPart (cot_style : String) : List String :=
  match alookup cot_style cot_styles with
  | some t => if !t.isEmpty then [t] else []
  | none => []

/-- Contribution of `custom_instructions` (lines 147-149): appended
verbatim when truthy. -/
def customPart (custom_instructions : Option String) : List String :=
  if optTruthy custom_instructions then [custom_instructions.getD ""] else []

/-- `PromptTemplateSystem.build_prompt` (prompt_templates.py lines 86-152):
the category contributions in source order, joined by a single space
after filtering out empty strings (`" ".join(filter(None, prompt_parts))`). -/
def build_prompt (system_role reasoning_style problem_approach answer_format
    notation_style verification_style cot_style : String)
    (domain custom_instructions : Option String) : String :=
  String.intercalate " "
    (List.filter (fun s => !s.isEmpty)
      (rolePart system_role domain ++ reasoningPart reasoning_style ++
        approachPart problem_approach ++ notationPart notation_style ++
        answerPart answer_format ++ verificationPart verification_style ++
        cotPart cot_style ++ customPart custom_instructions))

/-- The documented default variant key of each prompt-engineering category,
as declared both by the keyword defaults of `build_prompt` and by
`PromptTemplateSystem.get_parameter_schema`. -/
def schema_defaults : List (String × String) :=
  [("system_role", "minimal"),
   ("reasoning_style", "none"),
   ("problem_approach", "direct"),
   ("answer_format", "minimal"),
   ("notation_style", "standard"),
   ("verification_style", "none"),
   ("cot_style", "none")]

/-- Variant key resolved from a parameter bundle: the bundle value if the
key is present, otherwise the documented default (keyword default of
`build_prompt`). -/
def bundleGet (bundle : List (String × String)) (key dflt : String) : String :=
  (alookup key bundle).getD dflt

/-- `build_prompt` invoked with a flat parameter bundle (keyword-argument
mapping), every absent category taking its documented default - the way
`solve_livebench_math` forwards an optimizer parameter bundle to
`PromptTemplateSystem.build_prompt`. -/
def renderBundle (bundle : List (String × String))
    (domain custom_instructions : Option String) : String :=
  build_prompt
    (bundleGet bundle "system_role" "minimal")
    (bundleGet bundle "reasoning_style" "none")
    (bundleGet bundle "problem_approach" "direct")
    (bundleGet bundle "answer_format" "minimal")
    (bundleGet bundle "notation_style" "standard")
    (bundleGet bundle "verification_style" "none")
    (bundleGet bundle "cot_style" "none")
    domain custom_instructions

/-! ## Support classifier `PromptBuilder` (support_classifier/agent.py) -/

/-- `PromptBuilder.__init__.system_roles` of the support classifier. -/
def support_system_roles : List (String × String) :=
  [("classifier", "You are a helpful assistant that classifies customer support queries."),
   ("expert", "You are an expert customer support specialist with years of experience."),
   ("technical", "You are a technical support expert who understands complex system issues."),
   ("concise", "You are an efficient assistant that provides brief, accurate classifications.")]

/-- `PromptBuilder.__init__.output_formats` of the support classifier. -/
def support_output_formats : List (String × String) :=
  [("single_word", "Respond with only the category name: technical, billing, or general"),
   ("json", "Respond with JSON: \x7b\"category\": \"technical|billing|general\", \"confidence\": 0.0-1.0\x7d"),
   ("explanation", "First explain your reasoning, then provide the category on a new line.")]

/-- `PromptBuilder.__init__.styles` of the support classifier. -/
def support_styles : List (String × String) :=
  [("concise", "Be brief and direct."),
   ("detailed", "Provide thorough explanations."),
   ("technical", "Use technical language when appropriate."),
   ("friendly", "Use a warm, helpful tone.")]

/-- `PromptBuilder.build_system_message` (support_classifier/agent.py lines
123-133): `.get` with fallback to the `"classifier"` role, the
`"single_word"` format, and the empty string for the style. -/
def build_system_message (role output_format style : String) : String :=
  let base_role := (alookup role support_system_roles).getD
      ((alookup "classifier" support_system_roles).getD "")
  let format_instruction := (alookup output_format support_output_formats).getD
      ((alookup "single_word" support_output_formats).getD "")
  let style_instruction := (alookup style support_styles).getD ""
  let system_msg := base_role ++ "\n\n" ++ format_instruction
  if !style_instruction.isEmpty then system_msg ++ "\n\n" ++ style_instruction
  else system_msg

/-! ## Example selectors

Random draws are modelled by a stream `gs : List Nat`: `random.choice(l)`
consumes one draw `g` and returns `l[g % len(l)]`, `random.sample(l, m)`
consumes `m` draws and repeatedly removes the chosen element.  Every
concrete behaviour of the Python RNG is realised by some stream, and all
theorems hold for every stream. -/

/-- A support-classifier example record: a dict with an `output` category,
an optional `difficulty` label, and further payload fields abstracted into
`payload` (they only matter for dict equality). -/
structure Example where
  payload : Nat
  output : String
  difficulty : Option String
deriving DecidableEq, Repr

/-- A LiveBench example record: an optional `task` grouping field plus
abstracted payload. -/
structure LBExample where
  payload : Nat
  task : Option String
deriving DecidableEq, Repr

/-- `random.choice` on the non-empty list `a :: rest`, the draw `g`
selecting the index `g % len`. -/
def pyChoice (g : Nat) (a : α) (rest : List α) : α :=
  (a :: rest).get ⟨g % (a :: rest).length, Nat.mod_lt _ (Nat.succ_pos _)⟩

/-- `random.sample(pool, m)` for `m ≤ len(pool)` (every call site clamps
`m` with `min`): draw an index, remove the element, repeat. -/
def sample (gs : List Nat) (pool : List α) : Nat → List α
  | 0 => []
  | m + 1 =>
    match pool with
    | [] => []
    | p :: ps =>
      let i := gs.headD 0 % (p :: ps).length
      (p :: ps).get ⟨i, Nat.mod_lt _ (Nat.succ_pos _)⟩ ::
        sample gs.tail ((p :: ps).eraseIdx i) m

/-- A list enumerating the elements of a Python `set` built from `vals`:
duplicate-free and containing exactly the values of `vals`.  The order is
implementation-defined (string hashes are salted per process), so it is a
parameter constrained only by this predicate. -/
def IsSetOrder (vals order : List String) : Prop :=
  order.Nodup ∧ (∀ v ∈ order, v ∈ vals) ∧ ∀ v ∈ vals, v ∈ order

/-- First phase of the support classifier `"diverse"` strategy: for each
category (already truncated by the `i >= k` break) take `random.choice`
from the examples with that `output`; a category with no examples adds
nothing. -/
def diverseP1 (gs : List Nat) (dataset : List Example) : List String → List Example
  | [] => []
  | c :: cs =>
    match dataset.filter (fun ex => decide (ex.output = c)) with
    | [] => diverseP1 gs.tail dataset cs
    | e :: rest => pyChoice (gs.headD 0) e rest :: diverseP1 gs.tail dataset cs

/-- The fixed difficulty ladder of the `"difficulty_progression"` strategy. -/
def difficulties : List String := ["easy", "medium", "hard", "expert"]

/-- Loop of the `"difficulty_progression"` strategy: break once `k`
examples are selected, otherwise pick one random example per difficulty
label that is present in the pool (`ex.get('difficulty') == difficulty`). -/
def diffProgLoop (gs : List Nat) (dataset : List Example) (k : Nat)
    (selected : List Example) : List String → List Example
  | [] => selected
  | d :: ds =>
    if selected.length ≥ k then selected
    else
      match dataset.filter (fun ex => decide (ex.difficulty = some d)) with
      | [] => diffProgLoop gs.tail dataset k selected ds
      | e :: rest =>
        diffProgLoop gs.tail dataset k (selected ++ [pyChoice (gs.headD 0) e rest]) ds

/-- `ExampleSelector.select_examples` of the support classifier
(support_classifier/agent.py lines 185-231).  `catOrder` models the
iteration order of `list(set(ex['output'] for ex in self.dataset))`. -/
def selectExamplesSupport (gs : List Nat) (dataset : List Example) (k : Nat)
    (strategy : String) (catOrder : List String) : List Example :=
  if k = 0 then []
  else if strategy = "random" then sample gs dataset (min k dataset.length)
  else if strategy = "diverse" then
    let cats := catOrder.take k
    let selected := diverseP1 gs dataset cats
    let remaining := k - selected.length
    if remaining > 0 then
      let pool := dataset.filter fun ex => decide (ex ∉ selected)
      selected ++ sample (gs.drop cats.length) pool (min remaining pool.length)
    else selected
  else if strategy = "similar" then sample gs dataset (min k dataset.length)
  else if strategy = "difficulty_progression" then
    (diffProgLoop gs dataset k [] difficulties).take k
  else sample gs dataset (min k dataset.length)

/-- One iteration body of the LiveBench `"diverse"` first loop: filter
the examples of the current task; if any exist and any of them are not
yet selected, append one `random.choice` of the still-available ones. -/
def lbPick (g : Nat) (dataset : List LBExample) (task0 : Option String)
    (selected : List LBExample) : List LBExample :=
  let taskExamples := dataset.filter fun ex => decide (ex.task = task0)
  if taskExamples.isEmpty then selected
  else
    match taskExamples.filter (fun ex => decide (ex ∉ selected)) with
    | [] => selected
    | a :: rest => selected ++ [pyChoice g a rest]

/-- First phase of the LiveBench `"diverse"` strategy: for `i` in
`range(k)` (the remaining count is `rem`), cycle through the task list
(`tasks[i % len(tasks)]`, or `None` when it is empty), and append one
random not-yet-selected example of that task if one exists. -/
def diverseLBP1 (gs : List Nat) (dataset : List LBExample) (tasks : List String)
    (selected : List LBExample) (i : Nat) : Nat → List LBExample
  | 0 => selected
  | rem + 1 =>
    let task0 : Option String :=
      if tasks.isEmpty then none else tasks.get? (i % tasks.length)
    diverseLBP1 gs.tail dataset tasks (lbPick (gs.headD 0) dataset task0 selected)
      (i + 1) rem

/-- Second phase of the LiveBench `"diverse"` strategy: the `while` loop
topping the selection up with random not-yet-selected examples until `k`
examples are selected or the pool is exhausted.  The loop runs at most
`k` times (each iteration appends exactly one example), so fuel `k`
reproduces it exactly. -/
def diverseLBP2 (gs : List Nat) (dataset : List LBExample) (selected : List LBExample)
    (k : Nat) : Nat → List LBExample
  | 0 => selected
  | fuel + 1 =>
    if selected.length < k ∧ selected.length < dataset.length then
      match dataset.filter (fun ex => decide (ex ∉ selected)) with
      | [] => selected
      | e :: rest =>
        diverseLBP2 gs.tail dataset (selected ++ [pyChoice (gs.headD 0) e rest]) k fuel
    else selected

/-- `ExampleSelector.select_examples` of the LiveBench agent
(livebench_competition_math/agent.py lines 345-386).  `tasks` models the
iteration order of `list(set(ex.get('task', '') for ex in self.dataset))`. -/
def selectExamplesLB (gs : List Nat) (dataset : List LBExample) (k : Nat)
    (strategy : String) (tasks : List String) : List LBExample :=
  if k = 0 ∨ dataset.isEmpty then []
  else if strategy = "random" then sample gs dataset (min k dataset.length)
  else if strategy = "similar" then sample gs dataset (min k dataset.length)
  else if strategy = "diverse" then
    let selected := diverseLBP1 gs dataset tasks [] 0 k
    diverseLBP2 (gs.drop k) dataset selected k k
  else sample gs dataset (min k dataset.length)

/-- Worker for `firstSeenOrder`; the fuel (initially the list length,
which bounds the recursion depth since each step removes at least the
head) keeps the recursion structural. -/
def firstSeenOrderAux : Nat → List String → List String
  | _, [] => []
  | 0, _ => []
  | fuel + 1, x :: xs =>
    x :: firstSeenOrderAux fuel (xs.filter (fun y => decide (y ≠ x)))

/-- The claim notion of first-seen (stable) deduplication order of
grouping-key values, used to compare against the set-iteration order the
code actually uses. -/
def firstSeenOrder (l : List String) : List String :=
  firstSeenOrderAux l.length l

/-! ## Answer extraction (`PromptBuilder.format_answer_for_livebench`)

A Python `str` is a sequence of code points, modelled as `List Nat`.
`str.lower` / `str.upper` / `\w` / `\s` are modelled on the ASCII range,
which covers every character the extraction logic distinguishes.  The
embedding returns `Option (List Nat)`: `none` marks a spot where an
uncaught Python exception (an out-of-range list index) would escape, and
totality of the source function is the theorem that `none` never occurs. -/

/-- Code points of a string literal, for concrete inputs. -/
def pyStr (s : String) : List Nat := s.data.map Char.toNat

/-- ASCII model of the whitespace class stripped by `str.strip`. -/
def isSpaceCh (n : Nat) : Bool := n == 32 || (9 ≤ n && n ≤ 13)

/-- ASCII model of the regex word class `\w` (letters, digits, underscore). -/
def isWordCh (n : Nat) : Bool :=
  (48 ≤ n && n ≤ 57) || (65 ≤ n && n ≤ 90) || (97 ≤ n && n ≤ 122) || n == 95

/-- ASCII model of a digit (`\d`). -/
def isDigitCh (n : Nat) : Bool := 48 ≤ n && n ≤ 57

/-- `str.upper` on one code point (ASCII). -/
def upCh (n : Nat) : Nat := if 97 ≤ n ∧ n ≤ 122 then n - 32 else n

/-- `str.lower` on one code point (ASCII). -/
def lowCh (n : Nat) : Nat := if 65 ≤ n ∧ n ≤ 90 then n + 32 else n

/-- `str.upper`. -/
def pyUpper (s : List Nat) : List Nat := s.map upCh

/-- `str.lower`. -/
def pyLower (s : List Nat) : List Nat := s.map lowCh

/-- `str.strip()`: drop leading and trailing whitespace. -/
def pyStrip (s : List Nat) : List Nat :=
  ((s.dropWhile isSpaceCh).reverse.dropWhile isSpaceCh).reverse

/-- Python `sub in s` substring containment. -/
def containsSub (sub s : List Nat) : Bool := decide (sub <:+: s)

/-- Worker for `str.split(sep)` with non-empty separator `sepHead :: sepTail`:
cut at the leftmost separator occurrence and continue after it.  Each
step consumes at least one character of the subject, so fuel equal to the
subject length (supplied by `splitOnSub`) makes the recursion structural
without changing the result. -/
def splitOnSubAux (sepHead : Nat) (sepTail : List Nat) :
    Nat → List Nat → List Nat → List (List Nat)
  | _, acc, [] => [acc.reverse]
  | 0, acc, s => [acc.reverse ++ s]
  | fuel + 1, acc, c :: rest =>
    if (sepHead :: sepTail).isPrefixOf (c :: rest) then
      acc.reverse :: splitOnSubAux sepHead sepTail fuel [] (rest.drop sepTail.length)
    else splitOnSubAux sepHead sepTail fuel (c :: acc) rest

/-- Python `s.split(sep)` for a non-empty separator (the source only
splits on `'\n'` and on the non-empty keyword phrases; Python raises on
an empty separator, which therefore never occurs). -/
def splitOnSub (s sep : List Nat) : List (List Nat) :=
  match sep with
  | [] => [s]
  | sh :: st => splitOnSubAux sh st s.length [] s

/-- The keyword phrases scanned for in the default extraction path. -/
def kwPhrases : List (List Nat) :=
  [pyStr "answer:", pyStr "therefore", pyStr "thus", pyStr "so"]

/-- The inner `for phrase in [...]` loop of the default extraction path:
on the first phrase contained in the lowercased line, split on it and
return the part after the first occurrence, stripped (`parts[1].strip()`,
guarded by `len(parts) > 1`).  Result `some none` means the loop fell
through without returning, `none` an out-of-range index. -/
def phraseLoop (lineLower : List Nat) : List (List Nat) → Option (Option (List Nat))
  | [] => some none
  | ph :: rest =>
    if containsSub ph lineLower then
      let parts := splitOnSub lineLower ph
      if parts.length > 1 then
        match parts.get? 1 with
        | some p => some (some (pyStrip p))
        | none => none
      else phraseLoop lineLower rest
    else phraseLoop lineLower rest

/-- The `for line in reversed(lines)` loop of the default extraction
path: skip blank lines and `#` lines; on a line containing a keyword
phrase return the text after it; otherwise return the line itself when it
is shorter than 100 characters; when the lines are exhausted return the
stripped original response. -/
def lineLoop (orig : List Nat) : List (List Nat) → Option (List Nat)
  | [] => some (pyStrip orig)
  | l :: rest =>
    let line := pyStrip l
    if line.isEmpty then lineLoop orig rest
    else if line.headD 0 == 35 then lineLoop orig rest
    else
      let low := pyLower line
      let kwResult : Option (Option (List Nat)) :=
        if kwPhrases.any (fun ph => containsSub ph low) then phraseLoop low kwPhrases
        else some none
      match kwResult with
      | none => none
      | some (some r) => some r
      | some none =>
        if !line.isEmpty && line.length < 100 then some line
        else lineLoop orig rest

/-- Default extraction path: split the stripped response into lines and
scan them from the last line backward. -/
def defaultPath (response : List Nat) : Option (List Nat) :=
  lineLoop response ((splitOnSub (pyStrip response) (pyStr "\n")).reverse)

/-- `re.search(r'\b([A-E])\b', s)`: the first character in `65..69`
(`A`-`E`) whose neighbours are word boundaries; `prev` is the character
before the current scan position. -/
def reSearchAE (prev : Option Nat) : List Nat → Option Nat
  | [] => none
  | c :: rest =>
    if (65 ≤ c && c ≤ 69) &&
       (match prev with | none => true | some p => !isWordCh p) &&
       (match rest with | [] => true | r :: _ => !isWordCh r)
    then some c
    else reSearchAE (some c) rest

/-- Worker for `findNumbers`; each step consumes at least one character,
so fuel equal to the subject length keeps the recursion structural. -/
def findNumbersAux : Nat → Option Nat → List Nat → List (List Nat)
  | _, _, [] => []
  | 0, _, _ => []
  | fuel + 1, prev, c :: rest =>
    if isDigitCh c && (match prev with | none => true | some p => !isWordCh p) then
      let run := c :: rest.takeWhile isDigitCh
      let rest2 := rest.dropWhile isDigitCh
      let lastc := run.getLastD c
      if run.length ≤ 3 &&
         (match rest2 with | [] => true | r :: _ => !isWordCh r) then
        run :: findNumbersAux fuel (some lastc) rest2
      else findNumbersAux fuel (some lastc) rest2
    else findNumbersAux fuel (some c) rest

/-- `re.findall(r'\b\d{1,3}\b', s)`: maximal digit runs of length 1-3
bounded by word boundaries, scanned left to right. -/
def findNumbers (s : List Nat) : List (List Nat) :=
  findNumbersAux s.length none s

/-- `numbers[-1].zfill(3)` on a digit token: pad on the left with `'0'`
(code point 48) to length 3. -/
def zfill3 (s : List Nat) : List Nat :=
  List.replicate (3 - s.length) 48 ++ s

/-- `PromptBuilder.format_answer_for_livebench`
(livebench_competition_math/agent.py lines 294-335). -/
def format_answer_for_livebench (response answer_format : List Nat) :
    Option (List Nat) :=
  if containsSub (pyStr "amc") (pyLower answer_format) then
    match reSearchAE none (pyUpper response) with
    | some c => some [c]
    | none => defaultPath response
  else if containsSub (pyStr "aime") (pyLower answer_format) then
    let numbers := findNumbers response
    if numbers.isEmpty then defaultPath response
    else
      match numbers.getLast? with
      | some n => some (zfill3 n)
      | none => none
  else if containsSub (pyStr "proof") (pyLower answer_format) then
    some (pyStrip response)
  else defaultPath response

/-- Claim-side characterisation for the AMC branch: the first character
of the original (not yet uppercased) response that is a standalone letter
`A`-`E` in either case, returned uppercased; `prev` is the preceding
character. -/
def amcFirstStandalone (prev : Option Nat) : List Nat → Option Nat
  | [] => none
  | c :: rest =>
    if ((65 ≤ c && c ≤ 69) || (97 ≤ c && c ≤ 101)) &&
       (match prev with | none => true | some p => !isWordCh p) &&
       (match rest with | [] => true | r :: _ => !isWordCh r)
    then some (upCh c)
    else amcFirstStandalone (some c) rest

/-! ## Theorems -/

/-- C1 counterexample: rendering the bundle
`{system_role: "none", reasoning_style: "none", answer_format: "minimal"}`
with every other category at its documented default does NOT return only
the minimal variant text of `answer_format`: the defaults of
`problem_approach` (`"direct"`) and `notation_style` (`"standard"`) are
appended unconditionally by `build_prompt`. -/
theorem C1_counterexample :
    renderBundle
      [("system_role", "none"), ("reasoning_style", "none"), ("answer_format", "minimal")]
      none none
    ≠ "Provide only the final answer." := by decide

/-- C1 (amended): rendering the bundle
`{system_role: "none", reasoning_style: "none", answer_format: "minimal"}`
with every other category at its documented default returns the default
`problem_approach` and `notation_style` fragments followed by the minimal
`answer_format` fragment, joined by single spaces. -/
theorem C1_amended_render :
    renderBundle
      [("system_role", "none"), ("reasoning_style", "none"), ("answer_format", "minimal")]
      none none
    = "Solve the problem directly. Use standard mathematical notation. Provide only the final answer." :=
  rfl

/-- C2 counterexample: three of the seven fragment categories -
`problem_approach`, `notation_style` and `answer_format` - contain no
variant whose template is the empty string, so no no-op selection exists
for them. -/
theorem C2_counterexample :
    (¬ ∃ p ∈ problem_approaches, p.2 = "") ∧
    (¬ ∃ p ∈ notation_styles, p.2 = "") ∧
    (¬ ∃ p ∈ answer_formats, p.2 = "") := by decide

/-- C2 (amended): exactly the categories `system_role`, `reasoning_style`,
`verification_style` and `cot_style` contain an empty (`"none"`) variant;
`problem_approach`, `notation_style` and `answer_format` contain none. -/
theorem C2_amended_empty_variants :
    alookup "none" system_roles = some "" ∧
    alookup "none" reasoning_styles = some "" ∧
    alookup "none" verification_styles = some "" ∧
    alookup "none" cot_styles = some "" ∧
    (∀ p ∈ problem_approaches, p.2 ≠ "") ∧
    (∀ p ∈ notation_styles, p.2 ≠ "") ∧
    (∀ p ∈ answer_formats, p.2 ≠ "") := by decide

/-- C3 counterexample: in `build_prompt` an unknown `system_role` key is
skipped (the category is omitted), so the rendered output differs from
the output with the documented default key `"minimal"`. -/
theorem C3_counterexample :
    build_prompt "fancy" "none" "direct" "minimal" "standard" "none" "none" none none
    ≠ build_prompt "minimal" "none" "direct" "minimal" "standard" "none" "none" none none := by
  decide

/-- C3 (amended): unknown variant keys never raise; in the support
classifier `build_system_message` an unknown role falls back to the
`"classifier"` default and an unknown output format to the
`"single_word"` default, while an unknown style falls back to the empty
string, so no style sentence is added and the message is exactly the
role text, a blank line and the format instruction; in `build_prompt`
an unknown variant key in any of the seven categories makes that
category contribute nothing: the output is exactly the space-join of
the remaining categories' fragments. -/
theorem C3_amended_fallbacks :
    (∀ role f s, alookup role support_system_roles = none →
      build_system_message role f s = build_system_message "classifier" f s) ∧
    (∀ r f s, alookup f support_output_formats = none →
      build_system_message r f s = build_system_message r "single_word" s) ∧
    (∀ r f s, alookup s support_styles = none →
      build_system_message r f s
        = (alookup r support_system_roles).getD
            ((alookup "classifier" support_system_roles).getD "")
          ++ "\n\n" ++
          (alookup f support_output_formats).getD
            ((alookup "single_word" support_output_formats).getD "")) ∧
    (∀ sr rs pa af ns vs cs d ci, alookup sr system_roles = none →
      build_prompt sr rs pa af ns vs cs d ci
        = String.intercalate " " (List.filter (fun s => !s.isEmpty)
            (reasoningPart rs ++ approachPart pa ++ notationPart ns ++ answerPart af ++
              verificationPart vs ++ cotPart cs ++ customPart ci))) ∧
    (∀ sr rs pa af ns vs cs d ci, alookup rs reasoning_styles = none →
      build_prompt sr rs pa af ns vs cs d ci
        = String.intercalate " " (List.filter (fun s => !s.isEmpty)
            (rolePart sr d ++ approachPart pa ++ notationPart ns ++ answerPart af ++
              verificationPart vs ++ cotPart cs ++ customPart ci))) ∧
    (∀ sr rs pa af ns vs cs d ci, alookup pa problem_approaches = none →
      build_prompt sr rs pa af ns vs cs d ci
        = String.intercalate " " (List.filter (fun s => !s.isEmpty)
            (rolePart sr d ++ reasoningPart rs ++ notationPart ns ++ answerPart af ++
              verificationPart vs ++ cotPart cs ++ customPart ci))) ∧
    (∀ sr rs pa af ns vs cs d ci, alookup ns notation_styles = none →
      build_prompt sr rs pa af ns vs cs d ci
        = String.intercalate " " (List.filter (fun s => !s.isEmpty)
            (rolePart sr d ++ reasoningPart rs ++ approachPart pa ++ answerPart af ++
              verificationPart vs ++ cotPart cs ++ customPart ci))) ∧
    (∀ sr rs pa af ns vs cs d ci, alookup af answer_formats = none →
      build_prompt sr rs pa af ns vs cs d ci
        = String.intercalate " " (List.filter (fun s => !s.isEmpty)
            (rolePart sr d ++ reasoningPart rs ++ approachPart pa ++ notationPart ns ++
              verificationPart vs ++ cotPart cs ++ customPart ci))) ∧
    (∀ sr rs pa af ns vs cs d ci, alookup vs verification_styles = none →
      build_prompt sr rs pa af ns vs cs d ci
        = String.intercalate " " (List.filter (fun s => !s.isEmpty)
            (rolePart sr d ++ reasoningPart rs ++ approachPart pa ++ notationPart ns ++
              answerPart af ++ cotPart cs ++ customPart ci))) ∧
    (∀ sr rs pa af ns vs cs d ci, alookup cs cot_styles = none →
      build_prompt sr rs pa af ns vs cs d ci
        = String.intercalate " " (List.filter (fun s => !s.isEmpty)
            (rolePart sr d ++ reasoningPart rs ++ approachPart pa ++ notationPart ns ++
              answerPart af ++ verificationPart vs ++ customPart ci))) := by
  refine ⟨fun role f s h => ?_, fun r f s h => ?_, fun r f s h => ?_,
    fun sr rs pa af ns vs cs d ci h => ?_, fun sr rs pa af ns vs cs d ci h => ?_,
    fun sr rs pa af ns vs cs d ci h => ?_, fun sr rs pa af ns vs cs d ci h => ?_,
    fun sr rs pa af ns vs cs d ci h => ?_, fun sr rs pa af ns vs cs d ci h => ?_,
    fun sr rs pa af ns vs cs d ci h => ?_⟩
  · have h1 : alookup "classifier" support_system_roles
        = some "You are a helpful assistant that classifies customer support queries." := rfl
    simp [build_system_message, h, h1]
  · have h1 : alookup "single_word" support_output_formats
        = some "Respond with only the category name: technical, billing, or general" := rfl
    simp [build_system_message, h, h1]
  · have h3 : "".isEmpty = true := rfl
    simp [build_system_message, h, h3]
  · simp [build_prompt, rolePart, h]
  · simp [build_prompt, reasoningPart, h]
  · simp [build_prompt, approachPart, h]
  · simp [build_prompt, notationPart, h]
  · simp [build_prompt, answerPart, h]
  · simp [build_prompt, verificationPart, h]
  · simp [build_prompt, cotPart, h]

/-- C3 witness: the fallback theorem applied to the concrete unknown
keys `"boss"` (role), `"casual"` (style), `"fancy"` (system_role) and
`"zigzag"` (problem_approach). -/
theorem C3_amended_fallbacks_witness :
    build_system_message "boss" "json" "concise"
      = build_system_message "classifier" "json" "concise" ∧
    build_system_message "expert" "json" "casual"
      = (alookup "expert" support_system_roles).getD
          ((alookup "classifier" support_system_roles).getD "")
        ++ "\n\n" ++
        (alookup "json" support_output_formats).getD
          ((alookup "single_word" support_output_formats).getD "") ∧
    build_prompt "fancy" "basic" "direct" "minimal" "standard" "none" "none" none none
      = String.intercalate " " (List.filter (fun s => !s.isEmpty)
          (reasoningPart "basic" ++ approachPart "direct" ++ notationPart "standard" ++
            answerPart "minimal" ++ verificationPart "none" ++ cotPart "none" ++
            customPart none)) ∧
    build_prompt "minimal" "basic" "zigzag" "minimal" "standard" "none" "none" none none
      = String.intercalate " " (List.filter (fun s => !s.isEmpty)
          (rolePart "minimal" none ++ reasoningPart "basic" ++ notationPart "standard" ++
            answerPart "minimal" ++ verificationPart "none" ++ cotPart "none" ++
            customPart none)) :=
  ⟨C3_amended_fallbacks.1 "boss" "json" "concise" (by decide),
   C3_amended_fallbacks.2.2.1 "expert" "json" "casual" (by decide),
   C3_amended_fallbacks.2.2.2.1 "fancy" "basic" "direct" "minimal" "standard" "none" "none"
     none none (by decide),
   C3_amended_fallbacks.2.2.2.2.2.1 "minimal" "basic" "zigzag" "minimal" "standard" "none"
     "none" none none (by decide)⟩

/-- Lookup in an association list with duplicate-free keys is invariant
under permutation of the entries. -/
theorem alookup_perm {b1 b2 : List (String × String)} (h : b1.Perm b2)
    (hn : (b1.map Prod.fst).Nodup) (k : String) : alookup k b1 = alookup k b2 := by
  induction h with
  | nil => rfl
  | cons x h2 ih =>
      simp only [List.map_cons, List.nodup_cons] at hn
      simp only [alookup, ih hn.2]
  | swap x y l =>
      simp only [List.map_cons, List.nodup_cons, List.mem_cons, List.mem_map] at hn
      have hxy : y.1 ≠ x.1 := fun e => hn.1 (Or.inl e)
      simp only [alookup]
      by_cases h1 : k = y.1 <;> by_cases h2 : k = x.1 <;>
        simp [h1, h2, hxy, Ne.symm hxy]
  | trans h1 h2 ih1 ih2 =>
      exact (ih1 hn).trans (ih2 (((h1.map Prod.fst).nodup_iff).mp hn))

/-- C4: the prompt assembler is deterministic in the parameter bundle:
for identical inputs the output is the same string (the embedding is a
pure function), and permuting the entries of a duplicate-free bundle -
i.e. changing the key insertion order of the input mapping - never
changes the rendered output. -/
theorem C4_render_deterministic (b1 b2 : List (String × String))
    (domain custom_instructions : Option String)
    (hperm : b1.Perm b2) (hnd : (b1.map Prod.fst).Nodup) :
    renderBundle b1 domain custom_instructions
      = renderBundle b2 domain custom_instructions := by
  unfold renderBundle bundleGet
  simp only [alookup_perm hperm hnd]

/-- C4 witness: a concrete two-key bundle rendered equal under swapped
insertion order. -/
theorem C4_render_deterministic_witness :
    renderBundle [("system_role", "olympiad"), ("answer_format", "boxed")] none none
    = renderBundle [("answer_format", "boxed"), ("system_role", "olympiad")] none none :=
  C4_render_deterministic _ _ none none (by decide) (by decide)

/-- C8 counterexample: the spec example fails: extraction from
`"Step 1...\nTherefore, x = 5"` under format `"minimal"` returns
`", x = 5"` (the line is lowercased and only whitespace is stripped after
the keyword, so the comma survives), not `"x = 5"`. -/
theorem C8_counterexample :
    format_answer_for_livebench (pyStr "Step 1...\nTherefore, x = 5") (pyStr "minimal")
    ≠ some (pyStr "x = 5") := by decide

/-- When the separator does not occur in the subject, `str.split` keeps
the subject whole (stated for the fuelled worker, with the pending
chunk `acc`). -/
theorem splitOnSubAux_no_occ (sh : Nat) (st : List Nat) :
    ∀ (s : List Nat) (acc : List Nat) (fuel : Nat), s.length ≤ fuel →
    ¬ (sh :: st) <:+: s →
    splitOnSubAux sh st fuel acc s = [acc.reverse ++ s]
  | [], acc, fuel, hf, hno => by
      cases fuel <;> simp [splitOnSubAux]
  | c :: rest, acc, fuel, hf, hno => by
      cases fuel with
      | zero => simp at hf
      | succ f =>
          simp only [splitOnSubAux]
          rw [if_neg]
          · have hrec := splitOnSubAux_no_occ sh st rest (c :: acc) f
              (by simp at hf; omega)
              (fun hx => hno (hx.trans (List.suffix_cons c rest).isInfix))
            rw [hrec, List.reverse_cons, List.append_assoc, List.singleton_append]
          · intro hpre
            exact hno (List.isPrefixOf_iff_prefix.mp hpre).isInfix


/-- When the subject decomposes as `a ++ sep ++ b` with no separator
occurrence starting inside `a` and none in `b`, the fuelled split worker
cuts exactly there. -/
theorem splitOnSubAux_first (sh : Nat) (st : List Nat) :
    ∀ (a : List Nat) (acc b : List Nat) (fuel : Nat),
    (a ++ (sh :: st) ++ b).length ≤ fuel →
    (∀ a2, a2 ≠ [] → a2 <:+ a → ¬ (sh :: st) <+: (a2 ++ (sh :: st) ++ b)) →
    ¬ (sh :: st) <:+: b →
    splitOnSubAux sh st fuel acc (a ++ (sh :: st) ++ b) = [acc.reverse ++ a, b]
  | [], acc, b, fuel, hf, hfirst, hb => by
      simp only [List.nil_append, List.cons_append, List.length_cons] at hf ⊢
      cases fuel with
      | zero => simp at hf
      | succ f =>
          simp only [splitOnSubAux]
          rw [if_pos]
          · rw [List.drop_left st b, splitOnSubAux_no_occ sh st b [] f (by simp at hf; omega) hb]
            simp
          · exact List.isPrefixOf_iff_prefix.mpr ⟨b, by simp⟩
  | x :: a2, acc, b, fuel, hf, hfirst, hb => by
      simp only [List.cons_append, List.length_cons] at hf ⊢
      cases fuel with
      | zero => simp at hf
      | succ f =>
          simp only [splitOnSubAux]
          rw [if_neg]
          · have hrec := splitOnSubAux_first sh st a2 (x :: acc) b f
              (by simp at hf ⊢; omega)
              (fun a3 h1 h2 => hfirst a3 h1 (h2.trans (List.suffix_cons x a2)))
              hb
            rw [hrec, List.reverse_cons, List.append_assoc, List.singleton_append]
          · intro hpre
            exact hfirst (x :: a2) (by simp) (List.suffix_refl _)
              (by simpa using List.isPrefixOf_iff_prefix.mp hpre)


/-- `str.split(sep)` on a subject with exactly one separator occurrence
returns the text before and the text after it. -/
theorem splitOnSub_first (a ph b : List Nat) (hne : ph ≠ [])
    (hfirst : ∀ a2, a2 ≠ [] → a2 <:+ a → ¬ ph <+: (a2 ++ ph ++ b))
    (hb : ¬ ph <:+: b) :
    splitOnSub (a ++ ph ++ b) ph = [a, b] := by
  obtain ⟨sh, st, rfl⟩ := List.exists_cons_of_ne_nil hne
  rw [splitOnSub]
  rw [splitOnSubAux_first sh st a [] b _ (Nat.le_refl _) hfirst hb]
  simp

/-- The keyword loop skips phrases not contained in the line and, on the
first contained phrase, returns the trimmed text after its (unique)
occurrence. -/
theorem phraseLoop_first (low a b ph : List Nat) (post : List (List Nat))
    (hcont : containsSub ph low = true)
    (hsplit : splitOnSub low ph = [a, b]) :
    ∀ (pre : List (List Nat)), (∀ q ∈ pre, containsSub q low = false) →
    phraseLoop low (pre ++ ph :: post) = some (some (pyStrip b))
  | [], hpre => by
      simp only [List.nil_append, phraseLoop, hcont, if_true, hsplit]
      rfl
  | q :: pre2, hpre => by
      simp only [List.cons_append, phraseLoop, hpre q (List.mem_cons_self q pre2)]
      simp only [Bool.false_eq_true, if_false]
      exact phraseLoop_first low a b ph post hcont hsplit pre2
        (fun q2 hq2 => hpre q2 (List.mem_cons_of_mem q hq2))


/-- The backward line scan ignores blank lines and lines starting with
`#`. -/
theorem lineLoop_skips (orig : List Nat) (L : List Nat) (rest : List (List Nat)) :
    ∀ (skips : List (List Nat)),
    (∀ l ∈ skips, pyStrip l = [] ∨ ((pyStrip l).headD 0 == 35) = true) →
    lineLoop orig (skips ++ L :: rest) = lineLoop orig (L :: rest)
  | [], _ => rfl
  | l :: skips2, h => by
      have hrec := lineLoop_skips orig L rest skips2
        (fun l2 hl2 => h l2 (List.mem_cons_of_mem l hl2))
      rcases h l (List.mem_cons_self l skips2) with h1 | h1
      · simp only [List.cons_append, lineLoop]
        rw [if_pos (List.isEmpty_iff.mpr h1)]
        exact hrec
      · by_cases he : (pyStrip l).isEmpty = true
        · simp only [List.cons_append, lineLoop]
          rw [if_pos he]
          exact hrec
        · simp only [List.cons_append, lineLoop]
          rw [if_neg he, if_pos h1]
          exact hrec


/-- C8 (amended): under the default answer format, when the last
non-blank non-`#` line of the response contains a keyword phrase, the
extractor returns the lowercased text of that line strictly after the
first occurrence of the earliest matching keyword (in the order
answer:, therefore, thus, so), trimmed of whitespace only - so
punctuation directly after the keyword survives and the text is
lowercased.  Stated for a keyword with a single occurrence in the line
(hypotheses `hfirst`, `hb`); in particular
`extract("Step 1...\nTherefore, x = 5", "minimal")` returns `", x = 5"`,
not `"x = 5"`. -/
theorem C8_amended_keyword_extraction (raw fmt L a b ph : List Nat)
    (skips rest : List (List Nat)) (pre post : List (List Nat))
    (hfmt1 : containsSub (pyStr "amc") (pyLower fmt) = false)
    (hfmt2 : containsSub (pyStr "aime") (pyLower fmt) = false)
    (hfmt3 : containsSub (pyStr "proof") (pyLower fmt) = false)
    (hrev : (splitOnSub (pyStrip raw) (pyStr "\n")).reverse = skips ++ L :: rest)
    (hskips : ∀ l ∈ skips, pyStrip l = [] ∨ ((pyStrip l).headD 0 == 35) = true)
    (hL1 : (pyStrip L).isEmpty = false)
    (hL2 : ((pyStrip L).headD 0 == 35) = false)
    (hkw : kwPhrases = pre ++ ph :: post)
    (hpre : ∀ q ∈ pre, containsSub q (pyLower (pyStrip L)) = false)
    (hsplit : pyLower (pyStrip L) = a ++ ph ++ b)
    (hfirst : ∀ a2, a2 ≠ [] → a2 <:+ a → ¬ ph <+: (a2 ++ ph ++ b))
    (hb : ¬ ph <:+: b) :
    format_answer_for_livebench raw fmt = some (pyStrip b) := by
  have hphmem : ph ∈ kwPhrases := by
    rw [hkw]
    exact List.mem_append_right pre (List.mem_cons_self ph post)
  have hphne : ph ≠ [] := by
    have := hphmem
    simp only [kwPhrases, List.mem_cons, List.mem_singleton] at this
    rcases this with rfl | rfl | rfl | rfl | h
    · decide
    · decide
    · decide
    · decide
    · simp at h
  have hcont : containsSub ph (pyLower (pyStrip L)) = true := by
    rw [containsSub, decide_eq_true_eq]
    exact ⟨a, b, hsplit.symm⟩
  have hsplit2 : splitOnSub (pyLower (pyStrip L)) ph = [a, b] := by
    rw [hsplit]
    exact splitOnSub_first a ph b hphne hfirst hb
  have hany : kwPhrases.any (fun q => containsSub q (pyLower (pyStrip L))) = true :=
    List.any_eq_true.mpr ⟨ph, hphmem, hcont⟩
  rw [format_answer_for_livebench, if_neg (by rw [hfmt1]; simp),
    if_neg (by rw [hfmt2]; simp), if_neg (by rw [hfmt3]; simp)]
  rw [defaultPath, hrev, lineLoop_skips raw L rest skips hskips]
  simp only [lineLoop]
  rw [if_neg (by rw [hL1]; simp), if_neg (by rw [hL2]; simp), if_pos hany]
  rw [hkw, phraseLoop_first (pyLower (pyStrip L)) a b ph post hcont hsplit2 pre hpre]

/-- C8 witness: the amended extraction theorem applied to the spec
example, whose last line "Therefore, x = 5" yields `", x = 5"`. -/
theorem C8_amended_keyword_extraction_witness :
    format_answer_for_livebench (pyStr "Step 1...\nTherefore, x = 5") (pyStr "minimal")
      = some (pyStrip (pyStr ", x = 5")) :=
  C8_amended_keyword_extraction (pyStr "Step 1...\nTherefore, x = 5") (pyStr "minimal")
    (pyStr "Therefore, x = 5") [] (pyStr ", x = 5") (pyStr "therefore")
    [] [pyStr "Step 1..."] [pyStr "answer:"] [pyStr "thus", pyStr "so"]
    (by decide) (by decide) (by decide) (by decide)
    (by simp)
    (by decide) (by decide) (by decide)
    (by decide) (by decide)
    (fun a2 h1 h2 => absurd (List.suffix_nil.mp h2) h1)
    (by decide)


/-- The inner keyword loop of the default extraction path never leaves
an uncaught exception: the `parts[1]` access is guarded by
`len(parts) > 1`. -/
theorem phraseLoop_ne_none (low : List Nat) : ∀ phs, phraseLoop low phs ≠ none
  | [] => by simp [phraseLoop]
  | ph :: rest => by
      simp only [phraseLoop]
      split
      · split
        · split
          · simp
          · rename_i hlen hget
            rw [List.get?_eq_none] at hget
            omega
        · exact phraseLoop_ne_none low rest
      · exact phraseLoop_ne_none low rest

/-- The backward line scan of the default extraction path always
produces a string. -/
theorem lineLoop_isSome (orig : List Nat) : ∀ lines, (lineLoop orig lines).isSome
  | [] => by simp [lineLoop]
  | l :: rest => by
      simp only [lineLoop]
      split
      · exact lineLoop_isSome orig rest
      · split
        · exact lineLoop_isSome orig rest
        · split
          · rename_i hnone
            exact absurd hnone (by split <;> [exact phraseLoop_ne_none _ _; simp])
          · simp
          · split
            · simp
            · exact lineLoop_isSome orig rest

/-- C9: `format_answer_for_livebench` is total: for every response text
and every answer format it returns a string - no branch can raise, since
every list index access (`match.group(1)`, `numbers[-1]`, `parts[1]`) is
guarded. -/
theorem C9_extractor_total (response answer_format : List Nat) :
    (format_answer_for_livebench response answer_format).isSome = true := by
  unfold format_answer_for_livebench
  split
  · split
    · simp
    · exact lineLoop_isSome _ _
  · split
    · dsimp only
      split
      · exact lineLoop_isSome _ _
      · split
        · simp
        · exfalso
          have h1 : (findNumbers response).getLast? = none := by assumption
          have h2 : ¬(findNumbers response).isEmpty = true := by assumption
          rw [List.getLast?_eq_none_iff] at h1
          exact h2 (by rw [h1]; rfl)
    · split
      · simp
      · exact lineLoop_isSome _ _

/-- ASCII uppercasing maps the case-insensitive letter range `a`-`e` /
`A`-`E` onto the uppercase range `A`-`E`. -/
theorem range_upCh (c : Nat) :
    (65 ≤ upCh c && upCh c ≤ 69) = ((65 ≤ c && c ≤ 69) || (97 ≤ c && c ≤ 101)) := by
  rw [Bool.eq_iff_iff]
  simp only [upCh, Bool.and_eq_true, Bool.or_eq_true, decide_eq_true_eq]
  split <;> omega

/-- Uppercasing preserves word-character status, hence word boundaries. -/
theorem isWordCh_upCh (c : Nat) : isWordCh (upCh c) = isWordCh c := by
  rw [Bool.eq_iff_iff]
  simp only [isWordCh, upCh, Bool.and_eq_true, Bool.or_eq_true, decide_eq_true_eq, beq_iff_eq]
  split <;> omega

/-- Searching `\b([A-E])\b` in the uppercased response is the same as
searching for the first standalone letter `A`-`E` of either case in the
original response and uppercasing it. -/
theorem reSearchAE_upper : ∀ (s : List Nat) (prev : Option Nat),
    reSearchAE (prev.map upCh) (pyUpper s) = amcFirstStandalone prev s
  | [], prev => by cases prev <;> rfl
  | c :: rest, prev => by
      have h2 : (match prev.map upCh with | none => true | some p => !isWordCh p)
              = (match prev with | none => true | some p => !isWordCh p) := by
        cases prev <;> simp [isWordCh_upCh]
      have h3 : (match pyUpper rest with | [] => true | r :: _ => !isWordCh r)
              = (match rest with | [] => true | r :: _ => !isWordCh r) := by
        cases rest <;> simp [pyUpper, isWordCh_upCh]
      show reSearchAE (prev.map upCh) (upCh c :: pyUpper rest) = _
      simp only [reSearchAE, amcFirstStandalone, range_upCh, h2, h3]
      split
      · rfl
      · exact reSearchAE_upper rest (some c)

/-- The standalone letter found by the AMC search is always an uppercase
letter in `A`-`E` (code points 65-69). -/
theorem amcFirstStandalone_range : ∀ (s : List Nat) (prev : Option Nat) (c : Nat),
    amcFirstStandalone prev s = some c → 65 ≤ c ∧ c ≤ 69
  | [], _, c => by simp [amcFirstStandalone]
  | a :: rest, prev, c => by
      simp only [amcFirstStandalone]
      split
      · rename_i h
        intro he
        have hc : upCh a = c := Option.some.inj he
        simp only [Bool.and_eq_true, Bool.or_eq_true, decide_eq_true_eq] at h
        have := h.1.1
        subst hc
        simp only [upCh]
        split <;> omega
      · exact amcFirstStandalone_range rest (some a) c

/-- C10: for an answer format containing `"amc"` (case-insensitive), the
extractor uppercases the whole response before the regex search, so the
first standalone letter `a`-`e` or `A`-`E` of the response is returned,
always as the single uppercase letter (code point in 65-69). -/
theorem C10_amc_uppercases (response answer_format : List Nat) (c : Nat)
    (hamc : containsSub (pyStr "amc") (pyLower answer_format) = true)
    (hfind : amcFirstStandalone none response = some c) :
    format_answer_for_livebench response answer_format = some [c] ∧ 65 ≤ c ∧ c ≤ 69 := by
  refine ⟨?_, amcFirstStandalone_range response none c hfind⟩
  unfold format_answer_for_livebench
  have h := reSearchAE_upper response none
  simp only [Option.map_none'] at h
  rw [if_pos hamc, h, hfind]

/-- C10 witness: the lowercase standalone `c` in
`"the answer is c."` is extracted as uppercase `"C"` (code point 67)
under the `"amc_format"` answer format. -/
theorem C10_amc_uppercases_witness :
    format_answer_for_livebench (pyStr "the answer is c.") (pyStr "amc_format")
      = some [67] ∧ 65 ≤ 67 ∧ 67 ≤ 69 :=
  C10_amc_uppercases _ _ 67 (by decide) (by decide)




theorem eraseIdx_subset2 : ∀ (l : List α) (i : Nat), l.eraseIdx i ⊆ l
  | [], _ => by simp [List.eraseIdx]
  | a :: l, 0 => by simp [List.eraseIdx, List.subset_cons_self]
  | a :: l, i + 1 => by
      simp only [List.eraseIdx, List.cons_subset]
      exact ⟨List.mem_cons_self a l, (eraseIdx_subset2 l i).trans (List.subset_cons_self a l)⟩

theorem nodup_eraseIdx : ∀ (l : List α) (i : Nat), l.Nodup → (l.eraseIdx i).Nodup
  | [], _, h => by simp [List.eraseIdx]
  | a :: l, 0, h => by
      simp only [List.eraseIdx]
      exact (List.nodup_cons.mp h).2
  | a :: l, i + 1, h => by
      rw [List.nodup_cons] at h
      simp only [List.eraseIdx]
      rw [List.nodup_cons]
      exact ⟨fun hm => h.1 (eraseIdx_subset2 l i hm), nodup_eraseIdx l i h.2⟩

theorem get_not_mem_eraseIdx : ∀ (l : List α) (i : Nat) (h : i < l.length),
    l.Nodup → l.get ⟨i, h⟩ ∉ l.eraseIdx i
  | [], i, h, _ => by simp at h
  | a :: l, 0, h, hn => by
      simp only [List.eraseIdx, List.get]
      exact (List.nodup_cons.mp hn).1
  | a :: l, i + 1, h, hn => by
      simp only [List.eraseIdx, List.get, List.mem_cons]
      rw [List.nodup_cons] at hn
      rintro (he | hm)
      · exact hn.1 (he ▸ List.get_mem l _ _)
      · exact get_not_mem_eraseIdx l i _ hn.2 hm

theorem sample_length : ∀ (m : Nat) (gs : List Nat) (pool : List α),
    (sample gs pool m).length = min m pool.length
  | 0, gs, pool => by simp [sample]
  | m + 1, gs, [] => by simp [sample]
  | m + 1, gs, p :: ps => by
      simp only [sample, List.length_cons]
      rw [sample_length m]
      have hlen : ((p :: ps).eraseIdx (gs.headD 0 % (p :: ps).length)).length + 1
          = (p :: ps).length :=
        List.length_eraseIdx_add_one (Nat.mod_lt _ (Nat.succ_pos _))
      simp only [List.length_cons] at hlen ⊢
      omega

theorem sample_subset : ∀ (m : Nat) (gs : List Nat) (pool : List α) (x : α),
    x ∈ sample gs pool m → x ∈ pool
  | 0, gs, pool, x => by simp [sample]
  | m + 1, gs, [], x => by simp [sample]
  | m + 1, gs, p :: ps, x => by
      simp only [sample]
      intro hx
      rcases List.mem_cons.mp hx with rfl | hx2
      · exact List.get_mem _ _ _
      · exact eraseIdx_subset2 _ _ (sample_subset m gs.tail _ x hx2)

theorem sample_nodup : ∀ (m : Nat) (gs : List Nat) (pool : List α),
    pool.Nodup → (sample gs pool m).Nodup
  | 0, gs, pool, _ => by simp [sample]
  | m + 1, gs, [], _ => by simp [sample]
  | m + 1, gs, p :: ps, hn => by
      simp only [sample, List.nodup_cons]
      refine ⟨fun hm => ?_, sample_nodup m gs.tail _ (nodup_eraseIdx _ _ hn)⟩
      exact get_not_mem_eraseIdx (p :: ps) _ _ hn (sample_subset m gs.tail _ _ hm)

theorem length_filter_not_mem {α : Type} [DecidableEq α] (l sel : List α)
    (hl : l.Nodup) (hsel : sel.Nodup) (hsub : sel ⊆ l) :
    (l.filter (fun x => decide (x ∉ sel))).length = l.length - sel.length := by
  have h1 := List.length_eq_length_filter_add (l := l) (fun x => decide (x ∈ sel))
  have heq : (fun x => !(decide (x ∈ sel))) = (fun x : α => decide (x ∉ sel)) := by
    funext x
    simp [decide_not]
  have h2 : (l.filter (fun x => decide (x ∈ sel))).length = sel.length := by
    have hperm : (l.filter (fun x => decide (x ∈ sel))).Perm sel := by
      apply (List.perm_ext_iff_of_nodup (hl.filter _) hsel).mpr
      intro a
      simp only [List.mem_filter, decide_eq_true_eq]
      exact ⟨fun h => h.2, fun h => ⟨hsub h, h⟩⟩
    exact hperm.length_eq
  rw [show (fun x => (!decide (x ∈ sel))) = (fun x : α => decide (x ∉ sel)) from heq] at h1
  omega

theorem diverseP1_mem (dataset : List Example) :
    ∀ (cats : List String) (gs : List Nat) (x : Example),
    x ∈ diverseP1 gs dataset cats → x ∈ dataset
  | [], gs, x => by simp [diverseP1]
  | c :: cs, gs, x => by
      simp only [diverseP1]
      split
      · exact fun hx => diverseP1_mem dataset cs gs.tail x hx
      · rename_i e rest heq
        intro hx
        rcases List.mem_cons.mp hx with rfl | hx2
        · have hm : pyChoice (gs.headD 0) e rest ∈ e :: rest := List.get_mem _ _ _
          rw [← heq] at hm
          exact (List.mem_filter.mp hm).1
        · exact diverseP1_mem dataset cs gs.tail x hx2

theorem diverseP1_map_output (dataset : List Example) :
    ∀ (cats : List String) (gs : List Nat),
    (∀ c ∈ cats, ∃ ex ∈ dataset, ex.output = c) →
    (diverseP1 gs dataset cats).map (fun ex => ex.output) = cats
  | [], gs, _ => by simp [diverseP1]
  | c :: cs, gs, h => by
      simp only [diverseP1]
      split
      · rename_i heq
        obtain ⟨ex, hmem, hout⟩ := h c (List.mem_cons_self c cs)
        have : ex ∈ dataset.filter (fun ex => decide (ex.output = c)) :=
          List.mem_filter.mpr ⟨hmem, by simp [hout]⟩
        rw [heq] at this
        simp at this
      · rename_i e rest heq
        have hm : pyChoice (gs.headD 0) e rest ∈ e :: rest := List.get_mem _ _ _
        rw [← heq] at hm
        have hout : (pyChoice (gs.headD 0) e rest).output = c := by
          have := (List.mem_filter.mp hm).2
          simpa using this
        simp only [List.map_cons, hout]
        rw [diverseP1_map_output dataset cs gs.tail
          (fun c2 hc2 => h c2 (List.mem_cons_of_mem c hc2))]

theorem selectSupport_diverse_spec (gs : List Nat) (dataset : List Example) (k : Nat)
    (catOrder : List String)
    (hk : 0 < k) (hkn : k ≤ dataset.length) (hnd : dataset.Nodup)
    (hord : IsSetOrder (dataset.map (fun ex => ex.output)) catOrder) :
    (selectExamplesSupport gs dataset k "diverse" catOrder).length = k ∧
    (selectExamplesSupport gs dataset k "diverse" catOrder).Nodup ∧
    ∀ x ∈ selectExamplesSupport gs dataset k "diverse" catOrder, x ∈ dataset := by
  have hk0 : ¬(k = 0) := by omega
  rw [selectExamplesSupport, if_neg hk0, if_neg (by decide : ¬("diverse" = "random")),
    if_pos rfl]
  dsimp only
  set cats := catOrder.take k with hcats
  set sel1 := diverseP1 gs dataset cats with hsel1
  have hpres : ∀ c ∈ cats, ∃ ex ∈ dataset, ex.output = c := by
    intro c hc
    have hc2 : c ∈ catOrder := List.take_subset k catOrder hc
    have hc3 : c ∈ dataset.map (fun ex => ex.output) := hord.2.1 c hc2
    obtain ⟨ex, hmem, hout⟩ := List.mem_map.mp hc3
    exact ⟨ex, hmem, hout⟩
  have hmap : sel1.map (fun ex => ex.output) = cats :=
    diverseP1_map_output dataset cats gs hpres
  have hlen1 : sel1.length = cats.length := by
    rw [← hmap, List.length_map]
  have hcatlen : cats.length = min k catOrder.length := List.length_take k catOrder
  have hcatnodup : cats.Nodup := (List.take_sublist k catOrder).nodup hord.1
  have hnodup1 : sel1.Nodup := List.Nodup.of_map _ (hmap ▸ hcatnodup)
  have hsub1 : ∀ x ∈ sel1, x ∈ dataset := fun x hx => diverseP1_mem dataset cats gs x hx
  have hs1k : sel1.length = min k catOrder.length := hlen1.trans hcatlen
  split
  · rename_i hrem
    set pool := dataset.filter (fun ex => decide (ex ∉ sel1)) with hpool
    have hpoollen : pool.length = dataset.length - sel1.length :=
      length_filter_not_mem dataset sel1 hnd hnodup1 hsub1
    have hslen : (sample (gs.drop cats.length) pool (min (k - sel1.length) pool.length)).length
        = min (min (k - sel1.length) pool.length) pool.length := sample_length _ _ _
    refine ⟨?_, ?_, ?_⟩
    · rw [List.length_append, hslen]
      omega
    · refine List.Nodup.append hnodup1 (sample_nodup _ _ _ (hnd.filter _)) ?_
      intro a ha hb
      have := sample_subset _ _ _ _ hb
      rw [hpool] at this
      have := (List.mem_filter.mp this).2
      simp only [decide_eq_true_eq] at this
      exact this ha
    · intro x hx
      rcases List.mem_append.mp hx with h1 | h2
      · exact hsub1 x h1
      · have := sample_subset _ _ _ _ h2
        rw [hpool] at this
        exact (List.mem_filter.mp this).1
  · rename_i hrem
    have : sel1.length = k := by omega
    exact ⟨this, hnodup1, hsub1⟩




theorem lbPick_inv (g : Nat) (dataset : List LBExample) (task0 : Option String)
    (selected : List LBExample) (hnd : selected.Nodup)
    (hsub : ∀ x ∈ selected, x ∈ dataset) :
    (lbPick g dataset task0 selected).Nodup ∧
    (∀ x ∈ lbPick g dataset task0 selected, x ∈ dataset) ∧
    selected.length ≤ (lbPick g dataset task0 selected).length ∧
    (lbPick g dataset task0 selected).length ≤ selected.length + 1 := by
  unfold lbPick
  dsimp only
  split
  · exact ⟨hnd, hsub, Nat.le_refl _, Nat.le_succ _⟩
  · split
    · exact ⟨hnd, hsub, Nat.le_refl _, Nat.le_succ _⟩
    · rename_i hne a rest heq
      have hpick : pyChoice g a rest ∈ a :: rest := List.get_mem _ _ _
      rw [← heq] at hpick
      have hpick2 := List.mem_filter.mp hpick
      have hmemdat : pyChoice g a rest ∈ dataset := (List.mem_filter.mp hpick2.1).1
      have hnotsel : pyChoice g a rest ∉ selected := by
        have := hpick2.2
        simpa using this
      refine ⟨?_, ?_, ?_, ?_⟩
      · rw [List.nodup_append]
        refine ⟨hnd, List.nodup_singleton _, ?_⟩
        intro x hx hx2
        rw [List.mem_singleton] at hx2
        exact hnotsel (hx2 ▸ hx)
      · intro x hx
        rcases List.mem_append.mp hx with h1 | h2
        · exact hsub x h1
        · rw [List.mem_singleton] at h2
          exact h2 ▸ hmemdat
      · simp
      · simp

theorem diverseLBP1_inv (dataset : List LBExample) (tasks : List String) :
    ∀ (rem : Nat) (gs : List Nat) (selected : List LBExample) (i : Nat),
    selected.Nodup → (∀ x ∈ selected, x ∈ dataset) →
    (diverseLBP1 gs dataset tasks selected i rem).Nodup ∧
    (∀ x ∈ diverseLBP1 gs dataset tasks selected i rem, x ∈ dataset) ∧
    (diverseLBP1 gs dataset tasks selected i rem).length ≤ selected.length + rem
  | 0, gs, selected, i, hnd, hsub => ⟨hnd, hsub, Nat.le_add_right _ _⟩
  | rem + 1, gs, selected, i, hnd, hsub => by
      simp only [diverseLBP1]
      have hp := lbPick_inv (gs.headD 0) dataset
        (if tasks.isEmpty then none else tasks.get? (i % tasks.length)) selected hnd hsub
      have := diverseLBP1_inv dataset tasks rem gs.tail
        (lbPick (gs.headD 0) dataset
          (if tasks.isEmpty then none else tasks.get? (i % tasks.length)) selected)
        (i + 1) hp.1 hp.2.1
      exact ⟨this.1, this.2.1, by omega⟩

theorem diverseLBP2_spec (dataset : List LBExample) (k : Nat)
    (hnd : dataset.Nodup) (hkn : k ≤ dataset.length) :
    ∀ (fuel : Nat) (gs : List Nat) (selected : List LBExample),
    selected.Nodup → (∀ x ∈ selected, x ∈ dataset) → selected.length ≤ k →
    k ≤ selected.length + fuel →
    (diverseLBP2 gs dataset selected k fuel).length = k ∧
    (diverseLBP2 gs dataset selected k fuel).Nodup ∧
    (∀ x ∈ diverseLBP2 gs dataset selected k fuel, x ∈ dataset)
  | 0, gs, selected, hsnd, hssub, hlk, hkl => by
      simp only [diverseLBP2]
      exact ⟨by omega, hsnd, hssub⟩
  | fuel + 1, gs, selected, hsnd, hssub, hlk, hkl => by
      simp only [diverseLBP2]
      split
      · rename_i hcond
        split
        · rename_i heq
          exfalso
          have hsubdat : ∀ x ∈ dataset, x ∈ selected := by
            intro x hx
            by_contra hnx
            have : x ∈ dataset.filter (fun ex => decide (ex ∉ selected)) :=
              List.mem_filter.mpr ⟨hx, by simpa using hnx⟩
            rw [heq] at this
            simp at this
          have := (List.subperm_of_subset hnd hsubdat).length_le
          omega
        · rename_i e rest heq
          have hpick : pyChoice (gs.headD 0) e rest ∈ e :: rest := List.get_mem _ _ _
          rw [← heq] at hpick
          have hpick2 := List.mem_filter.mp hpick
          have hnotsel : pyChoice (gs.headD 0) e rest ∉ selected := by
            have := hpick2.2
            simpa using this
          have hnd2 : (selected ++ [pyChoice (gs.headD 0) e rest]).Nodup := by
        
            rw [List.nodup_append]
            refine ⟨hsnd, List.nodup_singleton _, ?_⟩
            intro x hx hx2
            rw [List.mem_singleton] at hx2
            exact hnotsel (hx2 ▸ hx)
          have hsub2 : ∀ x ∈ selected ++ [pyChoice (gs.headD 0) e rest], x ∈ dataset := by
            intro x hx
            rcases List.mem_append.mp hx with h1 | h2
            · exact hssub x h1
            · rw [List.mem_singleton] at h2
              exact h2 ▸ hpick2.1
          refine diverseLBP2_spec dataset k hnd hkn fuel gs.tail _ hnd2 hsub2 ?_ ?_ <;>
            simp only [List.length_append, List.length_singleton] <;> omega
      · rename_i hcond
        have : selected.length = k := by
          rcases Nat.lt_or_ge selected.length k with h | h
          · exfalso
            exact hcond ⟨h, by omega⟩
          · omega
        exact ⟨this, hsnd, hssub⟩



theorem sample_clamped_spec {α : Type} (gs : List Nat) (pool : List α) (k : Nat)
    (hk : 0 < k) (hkn : k ≤ pool.length) (hnd : pool.Nodup) :
    (sample gs pool (min k pool.length)).length = k ∧
    (sample gs pool (min k pool.length)).Nodup ∧
    ∀ x ∈ sample gs pool (min k pool.length), x ∈ pool := by
  refine ⟨?_, sample_nodup _ _ _ hnd, fun x hx => sample_subset _ _ _ _ hx⟩
  rw [sample_length]
  omega

theorem selectSupport_random_spec (gs : List Nat) (dataset : List Example) (k : Nat)
    (catOrder : List String) (hk : 0 < k) (hkn : k ≤ dataset.length) (hnd : dataset.Nodup) :
    (selectExamplesSupport gs dataset k "random" catOrder).length = k ∧
    (selectExamplesSupport gs dataset k "random" catOrder).Nodup ∧
    ∀ x ∈ selectExamplesSupport gs dataset k "random" catOrder, x ∈ dataset := by
  rw [selectExamplesSupport, if_neg (by omega : ¬(k = 0)), if_pos rfl]
  exact sample_clamped_spec gs dataset k hk hkn hnd

theorem selectLB_random_spec (gs : List Nat) (dataset : List LBExample) (k : Nat)
    (tasks : List String) (hk : 0 < k) (hkn : k ≤ dataset.length) (hnd : dataset.Nodup) :
    (selectExamplesLB gs dataset k "random" tasks).length = k ∧
    (selectExamplesLB gs dataset k "random" tasks).Nodup ∧
    ∀ x ∈ selectExamplesLB gs dataset k "random" tasks, x ∈ dataset := by
  have hne : ¬(k = 0 ∨ dataset.isEmpty = true) := by
    rintro (h | h)
    · omega
    · rw [List.isEmpty_iff] at h
      subst h
      simp at hkn
      omega
  rw [selectExamplesLB, if_neg hne, if_pos rfl]
  exact sample_clamped_spec gs dataset k hk hkn hnd

theorem selectLB_diverse_spec (gs : List Nat) (dataset : List LBExample) (k : Nat)
    (tasks : List String) (hk : 0 < k) (hkn : k ≤ dataset.length) (hnd : dataset.Nodup) :
    (selectExamplesLB gs dataset k "diverse" tasks).length = k ∧
    (selectExamplesLB gs dataset k "diverse" tasks).Nodup ∧
    ∀ x ∈ selectExamplesLB gs dataset k "diverse" tasks, x ∈ dataset := by
  have hne : ¬(k = 0 ∨ dataset.isEmpty = true) := by
    rintro (h | h)
    · omega
    · rw [List.isEmpty_iff] at h
      subst h
      simp at hkn
      omega
  rw [selectExamplesLB, if_neg hne, if_neg (by decide : ¬("diverse" = "random")),
    if_neg (by decide : ¬("diverse" = "similar")), if_pos rfl]
  dsimp only
  have hp1 := diverseLBP1_inv dataset tasks k gs [] 0 List.nodup_nil (by simp)
  have := diverseLBP2_spec dataset k hnd hkn k (gs.drop k)
    (diverseLBP1 gs dataset tasks [] 0 k) hp1.1 hp1.2.1 (by have := hp1.2.2; simpa using this)
    (by have := hp1.2.2; omega)
  exact this

/-- C5 counterexample: on a pool containing two value-equal records
(`ex not in selected` and list membership compare dicts by value), the
guarantee fails: with `k = 3 = |pool|` on `[x, x, y]` the support
`"diverse"` strategy returns only 2 examples (the duplicate is expelled
from the top-up pool), and `"random"` with draw stream `[0, 0, 0]`
returns the two equal records (`random.sample` samples positions, not
values). -/
theorem C5_counterexample :
    (0 < 3 ∧
      3 ≤ ([⟨0, "x", none⟩, ⟨0, "x", none⟩, ⟨1, "y", none⟩] : List Example).length) ∧
    IsSetOrder ([⟨0, "x", none⟩, ⟨0, "x", none⟩, ⟨1, "y", none⟩].map
        (fun ex : Example => ex.output)) ["x", "y"] ∧
    (selectExamplesSupport [0, 0, 0] [⟨0, "x", none⟩, ⟨0, "x", none⟩, ⟨1, "y", none⟩]
        3 "diverse" ["x", "y"]).length = 2 ∧
    ¬ (selectExamplesSupport [0, 0, 0] [⟨0, "x", none⟩, ⟨0, "x", none⟩, ⟨1, "y", none⟩]
        3 "random" ["x", "y"]).Nodup :=
  ⟨by decide, by unfold IsSetOrder; decide, by decide, by decide⟩

/-- C5 (amended): for every pool of pairwise-distinct records, every
`0 < k ≤ |pool|` and every randomness stream, the `"random"` and
`"diverse"` strategies of both the support-classifier and the LiveBench
`ExampleSelector.select_examples` return exactly `k` pairwise-distinct
examples (the support `"diverse"` category order being any
duplicate-free enumeration of the output values, as produced by Python
`set` iteration).  The distinctness hypotheses are necessary: see the
counterexample on a pool with value-equal duplicates. -/
theorem C5_random_diverse_k_distinct (gs : List Nat) (k : Nat)
    (poolS : List Example) (poolL : List LBExample)
    (catOrder tasks : List String)
    (hk : 0 < k) (hkS : k ≤ poolS.length) (hkL : k ≤ poolL.length)
    (hndS : poolS.Nodup) (hndL : poolL.Nodup)
    (hord : IsSetOrder (poolS.map (fun ex => ex.output)) catOrder) :
    ((selectExamplesSupport gs poolS k "random" catOrder).length = k ∧
     (selectExamplesSupport gs poolS k "random" catOrder).Nodup) ∧
    ((selectExamplesSupport gs poolS k "diverse" catOrder).length = k ∧
     (selectExamplesSupport gs poolS k "diverse" catOrder).Nodup) ∧
    ((selectExamplesLB gs poolL k "random" tasks).length = k ∧
     (selectExamplesLB gs poolL k "random" tasks).Nodup) ∧
    ((selectExamplesLB gs poolL k "diverse" tasks).length = k ∧
     (selectExamplesLB gs poolL k "diverse" tasks).Nodup) := by
  have h1 := selectSupport_random_spec gs poolS k catOrder hk hkS hndS
  have h2 := selectSupport_diverse_spec gs poolS k catOrder hk hkS hndS hord
  have h3 := selectLB_random_spec gs poolL k tasks hk hkL hndL
  have h4 := selectLB_diverse_spec gs poolL k tasks hk hkL hndL
  exact ⟨⟨h1.1, h1.2.1⟩, ⟨h2.1, h2.2.1⟩, ⟨h3.1, h3.2.1⟩, ⟨h4.1, h4.2.1⟩⟩


/-- C5 witness: concrete three-example pools, k = 2, a concrete draw
stream and concrete set orders. -/
theorem C5_random_diverse_k_distinct_witness :
    ((selectExamplesSupport [1, 0, 1, 0]
        [⟨0, "technical", none⟩, ⟨1, "billing", none⟩, ⟨2, "general", none⟩]
        2 "random" ["general", "technical", "billing"]).length = 2 ∧
     (selectExamplesSupport [1, 0, 1, 0]
        [⟨0, "technical", none⟩, ⟨1, "billing", none⟩, ⟨2, "general", none⟩]
        2 "random" ["general", "technical", "billing"]).Nodup) ∧
    ((selectExamplesSupport [1, 0, 1, 0]
        [⟨0, "technical", none⟩, ⟨1, "billing", none⟩, ⟨2, "general", none⟩]
        2 "diverse" ["general", "technical", "billing"]).length = 2 ∧
     (selectExamplesSupport [1, 0, 1, 0]
        [⟨0, "technical", none⟩, ⟨1, "billing", none⟩, ⟨2, "general", none⟩]
        2 "diverse" ["general", "technical", "billing"]).Nodup) ∧
    ((selectExamplesLB [1, 0, 1, 0] [⟨0, some "a"⟩, ⟨1, some "b"⟩, ⟨2, some "a"⟩]
        2 "random" ["b", "a"]).length = 2 ∧
     (selectExamplesLB [1, 0, 1, 0] [⟨0, some "a"⟩, ⟨1, some "b"⟩, ⟨2, some "a"⟩]
        2 "random" ["b", "a"]).Nodup) ∧
    ((selectExamplesLB [1, 0, 1, 0] [⟨0, some "a"⟩, ⟨1, some "b"⟩, ⟨2, some "a"⟩]
        2 "diverse" ["b", "a"]).length = 2 ∧
     (selectExamplesLB [1, 0, 1, 0] [⟨0, some "a"⟩, ⟨1, some "b"⟩, ⟨2, some "a"⟩]
        2 "diverse" ["b", "a"]).Nodup) :=
  C5_random_diverse_k_distinct [1, 0, 1, 0] 2
    [⟨0, "technical", none⟩, ⟨1, "billing", none⟩, ⟨2, "general", none⟩]
    [⟨0, some "a"⟩, ⟨1, some "b"⟩, ⟨2, some "a"⟩]
    ["general", "technical", "billing"] ["b", "a"]
    (by decide) (by decide) (by decide) (by decide) (by decide)
    (by unfold IsSetOrder; decide)



/-- The difficulty-progression loop appends, to the already-selected
examples, one pick per present difficulty label in ladder order until
`k` picks are reached; every pick comes from the pool. -/
theorem diffProgLoop_spec (dataset : List Example) (k : Nat) :
    ∀ (ds : List String) (gs : List Nat) (sel : List Example),
    sel.length ≤ k →
    ((diffProgLoop gs dataset k sel ds).map (fun ex => ex.difficulty)
       = sel.map (fun ex => ex.difficulty)
         ++ ((ds.filter (fun d => dataset.any (fun ex => decide (ex.difficulty = some d)))).take
              (k - sel.length)).map some) ∧
    (∀ x ∈ diffProgLoop gs dataset k sel ds, x ∈ sel ∨ x ∈ dataset)
  | [], gs, sel, hsk => by
      refine ⟨by simp [diffProgLoop], ?_⟩
      simp only [diffProgLoop]
      exact fun x hx => Or.inl hx
  | d :: ds2, gs, sel, hsk => by
      simp only [diffProgLoop]
      split
      · rename_i hge
        have : k - sel.length = 0 := by omega
        refine ⟨by simp [this], fun x hx => Or.inl hx⟩
      · rename_i hlt
        split
        · rename_i heq
          have hany : dataset.any (fun ex => decide (ex.difficulty = some d)) = false := by
            by_contra h
            rw [Bool.not_eq_false, List.any_eq_true] at h
            obtain ⟨ex, hmem, hpred⟩ := h
            have : ex ∈ dataset.filter (fun ex => decide (ex.difficulty = some d)) :=
              List.mem_filter.mpr ⟨hmem, hpred⟩
            rw [heq] at this
            simp at this
          rw [List.filter_cons_of_neg (by simp [hany])]
          exact diffProgLoop_spec dataset k ds2 gs.tail sel hsk
        · rename_i e rest heq
          have hpick : pyChoice (gs.headD 0) e rest ∈ e :: rest := List.get_mem _ _ _
          rw [← heq] at hpick
          have hpick2 := List.mem_filter.mp hpick
          have hdiff : (pyChoice (gs.headD 0) e rest).difficulty = some d := by
            have := hpick2.2
            simpa using this
          have hemem : e ∈ dataset.filter (fun ex => decide (ex.difficulty = some d)) :=
            heq ▸ List.mem_cons_self e rest
          have hany : dataset.any (fun ex => decide (ex.difficulty = some d)) = true :=
            List.any_eq_true.mpr ⟨e, (List.mem_filter.mp hemem).1, (List.mem_filter.mp hemem).2⟩
          rw [List.filter_cons_of_pos (by simp [hany])]
          have hih := diffProgLoop_spec dataset k ds2 gs.tail
            (sel ++ [pyChoice (gs.headD 0) e rest])
            (by rw [List.length_append, List.length_singleton]; omega)
          constructor
          · rw [hih.1, List.map_append]
            have hk2 : k - sel.length = (k - (sel.length + 1)) + 1 := by omega
            rw [hk2]
            simp only [List.take_succ_cons, List.map_cons, List.map_singleton, hdiff,
              List.length_append, List.length_singleton, List.append_assoc,
              List.singleton_append, List.map_nil, List.nil_append]
          · intro x hx
            rcases hih.2 x hx with h1 | h2
            · rcases List.mem_append.mp h1 with ha | hb
              · exact Or.inl ha
              · rw [List.mem_singleton] at hb
                exact Or.inr (hb ▸ hpick2.1)
            · exact Or.inr h2



/-- C7: the `"difficulty_progression"` strategy returns, in the fixed
ladder order easy-medium-hard-expert, exactly one example per difficulty
label present in the pool, truncated to the first `k` labels; its length
is `min k (number of present labels)` - in particular fewer than `k`
examples when fewer labels are present, with no backfilling - and every
returned example belongs to the pool. -/
theorem C7_difficulty_progression (gs : List Nat) (dataset : List Example) (k : Nat) (catOrder : List String) :
    (selectExamplesSupport gs dataset k "difficulty_progression" catOrder).map
        (fun ex => ex.difficulty)
      = ((difficulties.filter
            (fun d => dataset.any (fun ex => decide (ex.difficulty = some d)))).take k).map
          some ∧
    (selectExamplesSupport gs dataset k "difficulty_progression" catOrder).length
      = min k (difficulties.filter
          (fun d => dataset.any (fun ex => decide (ex.difficulty = some d)))).length ∧
    ∀ x ∈ selectExamplesSupport gs dataset k "difficulty_progression" catOrder, x ∈ dataset := by
  by_cases hk : k = 0
  · subst hk
    rw [selectExamplesSupport, if_pos rfl]
    simp
  · rw [selectExamplesSupport, if_neg hk,
      if_neg (by decide : ¬("difficulty_progression" = "random")),
      if_neg (by decide : ¬("difficulty_progression" = "diverse")),
      if_neg (by decide : ¬("difficulty_progression" = "similar")), if_pos rfl]
    have hspec := diffProgLoop_spec dataset k difficulties gs [] (by simp)
    have hmap := hspec.1
    simp only [List.map_nil, List.nil_append, Nat.sub_zero, List.length_nil] at hmap
    refine ⟨?_, ?_, ?_⟩
    · rw [List.map_take, hmap, ← List.map_take, List.take_take, min_self]
    · rw [List.length_take]
      have : (diffProgLoop gs dataset k [] difficulties).length
          = (List.take k (difficulties.filter
              (fun d => dataset.any (fun ex => decide (ex.difficulty = some d))))).length := by
        rw [← List.length_map (diffProgLoop gs dataset k [] difficulties) (fun ex => ex.difficulty),
          hmap, List.length_map]
      rw [this, List.length_take]
      omega
    · intro x hx
      have hx2 : x ∈ diffProgLoop gs dataset k [] difficulties := List.take_subset _ _ hx
      rcases hspec.2 x hx2 with h1 | h2
      · simp at h1
      · exact h2

/-- C6 counterexample: the support classifier enumerates groups via
`list(set(...))`, whose order is implementation-defined, not first-seen:
for the two-example pool [technical, billing] the admissible set order
["billing", "technical"] makes the diverse picks realise the groups in
the order billing-technical, while the first-appearance order of the
grouping values in the pool is technical-billing. -/
theorem C6_counterexample :
    IsSetOrder ([⟨0, "technical", none⟩, ⟨1, "billing", none⟩].map
        (fun ex : Example => ex.output)) ["billing", "technical"] ∧
    (selectExamplesSupport [0, 0] [⟨0, "technical", none⟩, ⟨1, "billing", none⟩]
        2 "diverse" ["billing", "technical"]).map (fun ex => ex.output)
      = ["billing", "technical"] ∧
    firstSeenOrder ([⟨0, "technical", none⟩, ⟨1, "billing", none⟩].map
        (fun ex : Example => ex.output)) = ["technical", "billing"] ∧
    (["billing", "technical"] : List String) ≠ ["technical", "billing"] :=
  ⟨by unfold IsSetOrder; decide, by decide, by decide, by decide⟩

/-- In one pass over the task list (tasks visited once each, no
wrap-around yet), the LiveBench diverse first loop appends one
not-yet-selected random example per enumerated task that has matching
examples, in enumeration order; every pick comes from the pool. -/
theorem diverseLBP1_pass (dataset : List LBExample) (tasks : List String)
    (hnd : tasks.Nodup) :
    ∀ (rem i : Nat) (gs : List Nat) (selected : List LBExample),
    i + rem ≤ tasks.length →
    (∀ x ∈ selected, ∀ t ∈ tasks.drop i, x.task ≠ some t) →
    ((diverseLBP1 gs dataset tasks selected i rem).map (fun ex => ex.task)
      = selected.map (fun ex => ex.task)
        ++ (((tasks.drop i).take rem).filter
            (fun t => dataset.any (fun ex => decide (ex.task = some t)))).map
           (fun t => some t)) ∧
    ∀ x ∈ diverseLBP1 gs dataset tasks selected i rem, x ∈ selected ∨ x ∈ dataset
  | 0, i, gs, selected, hle, hinv => by
      refine ⟨by simp [diverseLBP1], fun x hx => Or.inl ?_⟩
      simpa [diverseLBP1] using hx
  | rem + 1, i, gs, selected, hle, hinv => by
      have hi : i < tasks.length := by omega
      have hne : tasks ≠ [] := by
        intro h
        rw [h] at hi
        simp at hi
      have hie : tasks.isEmpty = false := by
        rw [List.isEmpty_eq_false]
        exact hne
      have hget : tasks.get? (i % tasks.length) = some (tasks.get ⟨i, hi⟩) := by
        rw [Nat.mod_eq_of_lt hi]
        exact List.get?_eq_get hi
      have hdropi : tasks.drop i = tasks.get ⟨i, hi⟩ :: tasks.drop (i + 1) :=
        List.drop_eq_get_cons hi
      simp only [diverseLBP1, hie, Bool.false_eq_true, if_false, hget]
      rcases hfil : dataset.filter (fun ex => decide (ex.task = some (tasks.get ⟨i, hi⟩)))
        with _ | ⟨e, rest⟩
      · have hlb : lbPick (gs.headD 0) dataset (some (tasks.get ⟨i, hi⟩)) selected
            = selected := by
          unfold lbPick
          rw [hfil]
          simp
        rw [hlb]
        have hany : ¬ ((dataset.any (fun ex => decide (ex.task = some (tasks.get ⟨i, hi⟩))))
            = true) := by
          intro hx
          rw [List.any_eq_true] at hx
          obtain ⟨ex, hmem, hp⟩ := hx
          have h9 : ex ∈ dataset.filter (fun ex => decide (ex.task = some (tasks.get ⟨i, hi⟩))) :=
            List.mem_filter.mpr ⟨hmem, hp⟩
          rw [hfil] at h9
          simp at h9
        have hIH := diverseLBP1_pass dataset tasks hnd rem (i + 1) gs.tail selected
          (by omega)
          (fun x hx t ht => hinv x hx t (by rw [hdropi]; exact List.mem_cons_of_mem _ ht))
        rw [hdropi, List.take_succ_cons, List.filter_cons_of_neg]
        · exact hIH
        · exact hany
      · have htaskeq : ∀ x ∈ (e :: rest), x.task = some (tasks.get ⟨i, hi⟩) := by
          intro x hx
          have hxf : x ∈ dataset.filter (fun ex => decide (ex.task = some (tasks.get ⟨i, hi⟩))) := by
            rw [hfil]
            exact hx
          have := (List.mem_filter.mp hxf).2
          simpa using this
        have hnotsel : ∀ x ∈ (e :: rest), x ∉ selected := by
          intro x hx hxs
          exact hinv x hxs (tasks.get ⟨i, hi⟩)
            (by rw [hdropi]; exact List.mem_cons_self _ _) (htaskeq x hx)
        have hfilsame : (e :: rest).filter (fun ex => decide (ex ∉ selected)) = e :: rest :=
          List.filter_eq_self.mpr (fun a ha => by simpa using hnotsel a ha)
        have hlb : lbPick (gs.headD 0) dataset (some (tasks.get ⟨i, hi⟩)) selected
            = selected ++ [pyChoice (gs.headD 0) e rest] := by
          unfold lbPick
          rw [hfil]
          dsimp only
          rw [hfilsame]
          rfl
        rw [hlb]
        have hpickmem : pyChoice (gs.headD 0) e rest ∈ e :: rest := List.get_mem _ _ _
        have hpickdat : pyChoice (gs.headD 0) e rest ∈ dataset := by
          have : pyChoice (gs.headD 0) e rest
              ∈ dataset.filter (fun ex => decide (ex.task = some (tasks.get ⟨i, hi⟩))) := by
            rw [hfil]
            exact hpickmem
          exact (List.mem_filter.mp this).1
        have hpicktask : (pyChoice (gs.headD 0) e rest).task = some (tasks.get ⟨i, hi⟩) :=
          htaskeq _ hpickmem
        have hany : (dataset.any (fun ex => decide (ex.task = some (tasks.get ⟨i, hi⟩))))
            = true := by
          have hemem : e ∈ dataset.filter (fun ex => decide (ex.task = some (tasks.get ⟨i, hi⟩))) := by
            rw [hfil]
            exact List.mem_cons_self e rest
          exact List.any_eq_true.mpr
            ⟨e, (List.mem_filter.mp hemem).1, (List.mem_filter.mp hemem).2⟩
        have hnotin : tasks.get ⟨i, hi⟩ ∉ tasks.drop (i + 1) := by
          have hsubnd : (tasks.drop i).Nodup := (List.drop_suffix i tasks).sublist.nodup hnd
          rw [hdropi] at hsubnd
          exact (List.nodup_cons.mp hsubnd).1
        have hIH := diverseLBP1_pass dataset tasks hnd rem (i + 1) gs.tail
          (selected ++ [pyChoice (gs.headD 0) e rest]) (by omega) ?_
        · rw [hdropi, List.take_succ_cons, List.filter_cons_of_pos]
          swap
          · exact hany
          constructor
          · rw [hIH.1, List.map_append]
            simp only [List.map_singleton, hpicktask, List.map_cons, List.map_nil,
              List.append_assoc, List.singleton_append, List.nil_append]
          · intro x hx
            rcases hIH.2 x hx with h1 | h2
            · rcases List.mem_append.mp h1 with ha | hb
              · exact Or.inl ha
              · rw [List.mem_singleton] at hb
                exact Or.inr (hb ▸ hpickdat)
            · exact Or.inr h2
        · intro x hx t ht
          rcases List.mem_append.mp hx with h1 | h2
          · exact hinv x h1 t (by rw [hdropi]; exact List.mem_cons_of_mem _ ht)
          · rw [List.mem_singleton] at h2
            subst h2
            rw [hpicktask]
            intro he
            exact hnotin (Option.some.inj he ▸ ht)

/-- On an empty pool the LiveBench diverse first loop selects nothing. -/
theorem diverseLBP1_nil (tasks : List String) :
    ∀ (rem i : Nat) (gs : List Nat),
    diverseLBP1 gs [] tasks [] i rem = []
  | 0, i, gs => rfl
  | rem + 1, i, gs => by
      simp only [diverseLBP1]
      have hlb : ∀ t0, lbPick (gs.headD 0) [] t0 ([] : List LBExample) = [] := by
        intro t0
        unfold lbPick
        simp
      rw [hlb]
      exact diverseLBP1_nil tasks rem (i + 1) gs.tail

/-- The top-up loop of the LiveBench diverse strategy only appends:
the already-selected examples form a prefix of its result. -/
theorem diverseLBP2_extends (dataset : List LBExample) (k : Nat) :
    ∀ (fuel : Nat) (gs : List Nat) (selected : List LBExample),
    selected <+: diverseLBP2 gs dataset selected k fuel
  | 0, gs, selected => List.prefix_refl _
  | fuel + 1, gs, selected => by
      simp only [diverseLBP2]
      split
      · split
        · exact List.prefix_refl _
        · exact (List.prefix_append selected _).trans
            (diverseLBP2_extends dataset k fuel gs.tail _)
      · exact List.prefix_refl _

/-- The first-phase picks form a prefix of the LiveBench diverse
selection. -/
theorem diverseLBP1_prefix_select (gs : List Nat) (dataset : List LBExample)
    (k : Nat) (tasks : List String) :
    diverseLBP1 gs dataset tasks [] 0 k <+: selectExamplesLB gs dataset k "diverse" tasks := by
  rw [selectExamplesLB]
  split
  · rename_i hcond
    rcases hcond with h | h
    · subst h
      simp [diverseLBP1]
    · rw [List.isEmpty_iff] at h
      subst h
      rw [diverseLBP1_nil]
  · rw [if_neg (by decide : ¬("diverse" = "random")),
      if_neg (by decide : ¬("diverse" = "similar")), if_pos rfl]
    exact diverseLBP2_extends dataset k k (gs.drop k) _

/-- C6 (amended): both selectors enumerate the distinct grouping values
in an unspecified set-iteration order (any duplicate-free enumeration),
not first-seen order.  Support classifier: for every such order, the
first `min(k, number of groups)` selected examples realise exactly the
first `k` enumerated groups, one example per group in that order, each
drawn from the pool.  LiveBench: within the first pass (`k` at most the
number of tasks) the first-phase picks take one not-yet-picked example
per enumerated task that has matching examples, in enumeration order,
and those picks form a prefix of the final selection; when `k` exceeds
the group count the loop wraps around (`tasks[i % len(tasks)]`) and can
pick several examples per group, as the concrete run with groups a, b
and k = 3 shows (picked groups a, b, a). -/
theorem C6_amended_group_order (gs gsL : List Nat) (dataset : List Example) (poolL : List LBExample)
    (k kL : Nat) (catOrder tasks : List String)
    (hord : IsSetOrder (dataset.map (fun ex => ex.output)) catOrder)
    (htnd : tasks.Nodup) (hkL : kL ≤ tasks.length) :
    (((selectExamplesSupport gs dataset k "diverse" catOrder).take
        (min k catOrder.length)).map (fun ex => ex.output) = catOrder.take k ∧
      ∀ x ∈ (selectExamplesSupport gs dataset k "diverse" catOrder).take
          (min k catOrder.length), x ∈ dataset) ∧
    ((diverseLBP1 gsL poolL tasks [] 0 kL).map (fun ex => ex.task)
        = ((tasks.take kL).filter
            (fun t => poolL.any (fun ex => decide (ex.task = some t)))).map
          (fun t => some t) ∧
      diverseLBP1 gsL poolL tasks [] 0 kL <+: selectExamplesLB gsL poolL kL "diverse" tasks ∧
      ∀ x ∈ diverseLBP1 gsL poolL tasks [] 0 kL, x ∈ poolL) ∧
    (selectExamplesLB [0, 0, 0] [⟨0, some "a"⟩, ⟨1, some "a"⟩, ⟨2, some "b"⟩]
        3 "diverse" ["a", "b"]).map (fun ex => ex.task)
      = [some "a", some "b", some "a"] := by
  refine ⟨?_, ⟨?_, diverseLBP1_prefix_select gsL poolL kL tasks, ?_⟩, by decide⟩
  · -- support classifier part
    by_cases hk : k = 0
    · subst hk
      rw [selectExamplesSupport, if_pos rfl]
      simp
    · rw [selectExamplesSupport, if_neg hk, if_neg (by decide : ¬("diverse" = "random")),
        if_pos rfl]
      dsimp only
      set cats := catOrder.take k with hcats
      set sel1 := diverseP1 gs dataset cats with hsel1
      have hpres : ∀ c ∈ cats, ∃ ex ∈ dataset, ex.output = c := by
        intro c hc
        have hc2 : c ∈ catOrder := List.take_subset k catOrder hc
        obtain ⟨ex, hmem, hout⟩ := List.mem_map.mp (hord.2.1 c hc2)
        exact ⟨ex, hmem, hout⟩
      have hmap : sel1.map (fun ex => ex.output) = cats :=
        diverseP1_map_output dataset cats gs hpres
      have hlen1 : sel1.length = cats.length := by rw [← hmap, List.length_map]
      have hmin : min k catOrder.length = sel1.length := by
        rw [hlen1, hcats, List.length_take]
      have hsub1 : ∀ x ∈ sel1, x ∈ dataset := fun x hx => diverseP1_mem dataset cats gs x hx
      split
      · rw [hmin, List.take_left]
        exact ⟨hmap, hsub1⟩
      · rw [hmin, List.take_length]
        exact ⟨hmap, hsub1⟩
  · -- LiveBench first-pass group order
    have h := diverseLBP1_pass poolL tasks htnd kL 0 gsL [] (by omega) (by simp)
    have h1 := h.1
    simpa using h1
  · -- LiveBench first-pass membership
    intro x hx
    have h := diverseLBP1_pass poolL tasks htnd kL 0 gsL [] (by omega) (by simp)
    rcases h.2 x hx with h1 | h2
    · simp at h1
    · exact h2

/-- C6 witness: the amended group-order theorem applied to concrete
two-example pools with set orders ["billing", "technical"] and
["b", "a"]. -/
theorem C6_amended_group_order_witness :
    ((selectExamplesSupport [0, 0] [⟨0, "technical", none⟩, ⟨1, "billing", none⟩]
        2 "diverse" ["billing", "technical"]).take
        (min 2 (["billing", "technical"] : List String).length)).map (fun ex => ex.output)
      = (["billing", "technical"] : List String).take 2 ∧
    (diverseLBP1 [0, 0] [⟨0, some "a"⟩, ⟨1, some "b"⟩] ["b", "a"] [] 0 2).map
        (fun ex => ex.task)
      = (((["b", "a"] : List String).take 2).filter
          (fun t => ([⟨0, some "a"⟩, ⟨1, some "b"⟩] : List LBExample).any
            (fun ex => decide (ex.task = some t)))).map (fun t => some t) :=
  ⟨(C6_amended_group_order [0, 0] [0, 0] [⟨0, "technical", none⟩, ⟨1, "billing", none⟩]
      [⟨0, some "a"⟩, ⟨1, some "b"⟩] 2 2 ["billing", "technical"] ["b", "a"]
      (by unfold IsSetOrder; decide) (by decide) (by decide)).1.1,
   (C6_amended_group_order [0, 0] [0, 0] [⟨0, "technical", none⟩, ⟨1, "billing", none⟩]
      [⟨0, some "a"⟩, ⟨1, some "b"⟩] 2 2 ["billing", "technical"] ["b", "a"]
      (by unfold IsSetOrder; decide) (by decide) (by decide)).2.1.1⟩

end Traigent
